import Mathlib

/-!
Verification of the devcert certificate-provisioning engine
(adobe/ccweb-add-on-devcert, files src/index.ts and src/certificates.ts).

The filesystem and the external OpenSSL subprocess are modelled explicitly:
a system state carries an association-list filesystem, a logical clock used
as the modification time of written files, and an ordered event trace that
records subprocess invocations, CA-credential scoping, hosts-file edits,
repair actions and directory deletion.  Functions of the repository that
live in files absent from the snapshot (constants.ts, utils.ts,
certificate-authority.ts) are modelled from the design spec and marked as
such in their doc comments; everything else is a direct translation of the
TypeScript sources.
-/

namespace Devcert

/-- On-disk paths are lists of path components, relative to the devcert
configuration root. -/
abbrev Path := List String

/-- Render a path the way it would be spliced into an OpenSSL argument
vector. -/
def renderPath (p : Path) : String := String.intercalate "/" p

/-- Modelled from the spec: getStableDomainPath is defined in
src/constants.ts, which is not part of the snapshot.  Spec 4.1: a pure,
order-independent function of the domain set, namely sort + join. -/
def getStableDomainPath (domains : List String) : String :=
  String.intercalate "," (List.insertionSort (· ≤ ·) domains)

/-- Modelled from the spec: pathForDomain is defined in src/constants.ts,
which is not part of the snapshot.  Spec 6: the directory of one domain set
is domains/[domain-set-id] under the configuration root. -/
def pathForDomain (domainPath : String) : Path := ["domains", domainPath]

/-- Modelled from the spec: the two-argument form of pathForDomain, giving
a file inside the domain-set directory. -/
def pathForDomainFile (domainPath file : String) : Path := ["domains", domainPath, file]

/-- Modelled from the spec: root CA private key path, fixed directly under
the configuration root (spec 6). -/
def rootCAKeyPath : Path := ["rootCA.key"]

/-- Modelled from the spec: root CA certificate path, fixed directly under
the configuration root (spec 6). -/
def rootCACertPath : Path := ["rootCA.crt"]

/-- Modelled from the spec: withDomainSigningRequestConfig (constants.ts)
materialises a temporary OpenSSL config embedding the domain list and hands
its path to a callback; only the path matters here. -/
def domainCsrConfigPath (domains : List String) : String :=
  getStableDomainPath domains ++ "-csr.cnf"

/-- Modelled from the spec: withDomainCertificateConfig (constants.ts)
materialises a temporary OpenSSL CA config embedding the domain list and
hands its path to a callback; only the path matters here. -/
def domainCertConfigPath (domains : List String) : String :=
  getStableDomainPath domains ++ "-cert.cnf"

/-- The private key file of a domain set, as computed in certificateFor and
generateDomainCertificate. -/
def domainKeyPathOf (domains : List String) : Path :=
  pathForDomainFile (getStableDomainPath domains) "private-key.key"

/-- The certificate file of a domain set value, as computed in
certificateFor, hasCertificateFor and generateDomainCertificate. -/
def domainCertPathOf (domains : List String) : Path :=
  pathForDomainFile (getStableDomainPath domains) "certificate.crt"

/-- The certificate signing request file of a domain set. -/
def domainCsrPathOf (domains : List String) : Path :=
  pathForDomainFile (getStableDomainPath domains) "certificate-signing-request.csr"

/-- Abstract contents of the files the engine manipulates.  The `gen`
field is the value of the logical clock at generation time, so fresh
generations are distinguishable from cached material. -/
inductive FileContent where
  | rsaKey (bits : Nat) (gen : Nat)
  | csr (keyPath : Path) (gen : Nat)
  | cert (gen : Nat)
  | caKey (gen : Nat)
  | caCert (gen : Nat)
  deriving DecidableEq, Repr

/-- One file of the modelled filesystem: content, permission mode (the raw
numeric mode handed to chmod) and modification time. -/
structure FileEntry where
  content : FileContent
  mode : Nat
  mtime : Nat
  deriving DecidableEq, Repr

/-- The filesystem: newest write first, lookup returns the newest entry. -/
abbrev FS := List (Path × FileEntry)

def FS.lookup : FS → Path → Option FileEntry
  | [], _ => none
  | (q, e) :: fs, p => if q = p then some e else FS.lookup fs p

/-- chmod changes the mode of the visible (newest) entry of a path. -/
def FS.chmod : FS → Path → Nat → FS
  | [], _, _ => []
  | (q, e) :: fs, p, m =>
      if q = p then (q, { e with mode := m }) :: fs
      else (q, e) :: FS.chmod fs p m

/-- Observable events, in program order. -/
inductive Event where
  | subprocess (argv : List String)
  | acquireCACreds
  | releaseCACreds
  | installCA
  | ensureReadable
  | hostsAdd (domain : String)
  | fsDelete (domainPath : String)
  deriving DecidableEq, Repr

/-- The system state threaded through every operation.  JavaScript
exceptions do not roll back effects, so state is returned on error paths
too. -/
structure Sys where
  fs : FS
  clock : Nat
  trace : List Event
  deriving DecidableEq, Repr

def Sys.emit (s : Sys) (e : Event) : Sys :=
  { s with trace := s.trace ++ [e] }

def Sys.writeFile (s : Sys) (p : Path) (c : FileContent) (m : Nat) : Sys :=
  { s with fs := (p, ⟨c, m, s.clock⟩) :: s.fs, clock := s.clock + 1 }

/-- The external environment: the is-valid-domain npm predicate (with the
options fixed at the call site in index.ts), the platform flags, the
presence of the openssl binary on PATH, and the behaviour of the
expiry-introspection toolchain (utils.ts is not part of the snapshot). -/
structure Env where
  isValidDomain : String → Bool
  isMac : Bool
  isLinux : Bool
  isWindows : Bool
  opensslExists : Bool
  enddateOf : FileContent → String
  parseExpiry : String → Option Int

/-- The Options bag of index.ts (the ui hook only mutates the prompt layer
and is irrelevant to every claim, so it is omitted). -/
structure Options where
  getCaBuffer : Bool
  getCaPath : Bool
  skipCertutilInstall : Bool
  skipHostsFile : Bool
  deriving DecidableEq, Repr

/-- The errors the engine can raise. -/
inductive Err where
  | invalidDomain (domain : String)
  | unsupportedPlatform
  | missingOpenSSL
  | externalTool (msg : String)
  | fileNotFound (p : Path)
  deriving DecidableEq, Repr

/-- The return value of certificateFor: key and cert contents, plus the
optional CA material. -/
structure ReturnData where
  key : FileContent
  cert : FileContent
  ca : Option FileContent
  caPath : Option Path
  deriving DecidableEq, Repr

/-- The OpenSSL invocations the two source files issue, with the exact
argument shapes of the source. -/
inductive OpenSSLCmd where
  | genrsa (out : Path) (bits : Nat)
  | req (config : String) (key : Path) (out : Path)
  | caSign (config : String) (csr : Path) (out : Path) (caKey : Path) (caCert : Path)
      (days : Nat) (batch : Bool)
  | caRevoke (config : String) (cert : Path) (caKey : Path) (caCert : Path)
  | x509Enddate (file : Path)
  deriving DecidableEq, Repr

/-- The argument vector of each invocation, exactly as assembled in
certificates.ts and index.ts. -/
def OpenSSLCmd.argv : OpenSSLCmd → List String
  | .genrsa out bits => ["genrsa", "-out", renderPath out, toString bits]
  | .req config key out =>
      ["req", "-new", "-config", config, "-key", renderPath key, "-out", renderPath out]
  | .caSign config csr out caKey caCert days batch =>
      ["ca", "-config", config, "-in", renderPath csr, "-out", renderPath out,
       "-keyfile", renderPath caKey, "-cert", renderPath caCert,
       "-days", toString days] ++ (if batch then ["-batch"] else [])
  | .caRevoke config cert caKey caCert =>
      ["ca", "-config", config, "-revoke", renderPath cert,
       "-keyfile", renderPath caKey, "-cert", renderPath caCert]
  | .x509Enddate file => ["x509", "-in", renderPath file, "-noout", "-enddate"]

/-- Modelled from the spec: the openssl wrapper of utils.ts (not in the
snapshot) runs the toolkit as a blocking subprocess; exit 0 yields stdout,
non-zero exit becomes a thrown error (spec 4.2, 6).  Key generation always
succeeds; CSR creation, CA-signing, revocation and introspection fail when
an input file they must load is absent.  Every invocation is recorded on
the trace whether it succeeds or fails. -/
def opensslRun (env : Env) (cmd : OpenSSLCmd) (s : Sys) : Except Err String × Sys :=
  let s1 := s.emit (.subprocess cmd.argv)
  match cmd with
  | .genrsa out bits => (.ok "", s1.writeFile out (.rsaKey bits s1.clock) 420)
  | .req _ key out =>
      if (s1.fs.lookup key).isSome then (.ok "", s1.writeFile out (.csr key s1.clock) 420)
      else (.error (.externalTool "req: cannot load private key"), s1)
  | .caSign _ csr out caKey caCert _ _ =>
      if (s1.fs.lookup csr).isSome && (s1.fs.lookup caKey).isSome
          && (s1.fs.lookup caCert).isSome then
        (.ok "", s1.writeFile out (.cert s1.clock) 420)
      else (.error (.externalTool "ca: cannot sign request"), s1)
  | .caRevoke _ cert caKey caCert =>
      if (s1.fs.lookup cert).isSome && (s1.fs.lookup caKey).isSome
          && (s1.fs.lookup caCert).isSome then
        (.ok "", s1)
      else (.error (.externalTool "ca: unable to load certificate to revoke"), s1)
  | .x509Enddate file =>
      match s1.fs.lookup file with
      | some e => (.ok (env.enddateOf e.content), s1)
      | none => (.error (.externalTool "x509: cannot load input file"), s1)

/-- generateKey of certificates.ts: openssl genrsa -out filename 2048,
then chmod(filename, 400).  Node interprets the bare number 400 as a
decimal mode, so the mode recorded is literally 400 = 0o620. -/
def generateKey (env : Env) (filename : Path) (s : Sys) : Except Err Unit × Sys :=
  match opensslRun env (.genrsa filename 2048) s with
  | (.error e, s1) => (.error e, s1)
  | (.ok _, s1) => (.ok (), { s1 with fs := s1.fs.chmod filename 400 })

/-- generateDomainCertificate of certificates.ts: key, CSR, then CA-signed
certificate for 825 days in batch mode.  The scoped CA-credential
acquisition (withCertificateAuthorityCredentials, certificate-authority.ts,
absent from the snapshot) is modelled from the spec as an acquire event,
the callback run with the root CA key/cert paths, and a release event on
every exit path (spec 4.3). -/
def generateDomainCertificate (env : Env) (domains : List String) (s : Sys) :
    Except Err Unit × Sys :=
  let domainPath := getStableDomainPath domains
  let domainKeyPath := pathForDomainFile domainPath "private-key.key"
  let csrFile := pathForDomainFile domainPath "certificate-signing-request.csr"
  let domainCertPath := pathForDomainFile domainPath "certificate.crt"
  match generateKey env domainKeyPath s with
  | (.error e, s1) => (.error e, s1)
  | (.ok _, s1) =>
    match opensslRun env (.req (domainCsrConfigPath domains) domainKeyPath csrFile) s1 with
    | (.error e, s2) => (.error e, s2)
    | (.ok _, s2) =>
      let s3 := s2.emit .acquireCACreds
      match opensslRun env
          (.caSign (domainCertConfigPath domains) csrFile domainCertPath
            rootCAKeyPath rootCACertPath 825 true) s3 with
      | (r, s4) => (r.map (fun _ => ()), s4.emit .releaseCACreds)

/-- revokeDomainCertificate of certificates.ts: under the scoped
CA-credential acquisition, openssl ca -revoke on the cached certificate. -/
def revokeDomainCertificate (env : Env) (domains : List String) (s : Sys) :
    Except Err Unit × Sys :=
  let domainPath := getStableDomainPath domains
  let domainCertPath := pathForDomainFile domainPath "certificate.crt"
  let s1 := s.emit .acquireCACreds
  match opensslRun env
      (.caRevoke (domainCertConfigPath domains) domainCertPath
        rootCAKeyPath rootCACertPath) s1 with
  | (r, s2) => (r.map (fun _ => ()), s2.emit .releaseCACreds)

/-- Modelled from the spec: installCertificateAuthority
(certificate-authority.ts, absent from the snapshot) generates the root CA
key and self-signed certificate at their fixed paths, restricts the key to
owner-read-only, and installs the certificate into the trust stores
(spec 4.3 install). -/
def installCertificateAuthority (_opts : Options) (s : Sys) : Sys :=
  let s1 := s.emit .installCA
  let s2 := s1.writeFile rootCAKeyPath (.caKey s1.clock) 256
  s2.writeFile rootCACertPath (.caCert s2.clock) 420

/-- Modelled from the spec: ensureCACertReadable
(certificate-authority.ts, absent from the snapshot) repairs a CA key file
that is present but not readable, restoring correct permissions without
regenerating the key (spec 4.3 ensureReadable). -/
def ensureCACertReadable (_opts : Options) (s : Sys) : Sys :=
  let s1 := s.emit .ensureReadable
  { s1 with fs := s1.fs.chmod rootCAKeyPath 256 }

/-- Modelled from the spec: the per-platform
addDomainToHostFileIfMissing collaborator (spec 6) idempotently appends a
loopback entry for each domain; the hosts file lives outside the devcert
configuration root, so only the event is recorded. -/
def addHosts (domains : List String) (s : Sys) : Sys :=
  domains.foldl (fun acc d => acc.emit (.hostsAdd d)) s

/-- The validation loop at the top of certificateFor (index.ts lines
74-82): the first domain that is not the literal "localhost" and fails the
is-valid-domain check is rejected. -/
def findInvalidDomain (env : Env) (domains : List String) : Option String :=
  domains.find? (fun d => decide (d ≠ "localhost") && !env.isValidDomain d)

/-- Lines 108-116 of index.ts: install the root CA on first run; when the
CA key is already present, run the readability repair only when the caller
asked for CA material (getCaBuffer or getCaPath). -/
def caSetupStep (opts : Options) (s : Sys) : Sys :=
  if (s.fs.lookup rootCAKeyPath).isNone then
    installCertificateAuthority opts s
  else if opts.getCaBuffer || opts.getCaPath then
    ensureCACertReadable opts s
  else s

/-- Lines 133-140 of index.ts: the final reads of the key, certificate and
optional CA material; readFileSync throws when a file is absent.  The
state is only read, never modified. -/
def readReturnData (opts : Options) (domainKeyPath domainCertPath : Path) (s : Sys) :
    Except Err ReturnData × Sys :=
  match s.fs.lookup domainKeyPath with
  | none => (.error (.fileNotFound domainKeyPath), s)
  | some keyEntry =>
    match s.fs.lookup domainCertPath with
    | none => (.error (.fileNotFound domainCertPath), s)
    | some certEntry =>
      if opts.getCaBuffer then
        match s.fs.lookup rootCACertPath with
        | none => (.error (.fileNotFound rootCACertPath), s)
        | some caEntry =>
          (.ok ⟨keyEntry.content, certEntry.content, some caEntry.content,
            if opts.getCaPath then some rootCACertPath else none⟩, s)
      else
        (.ok ⟨keyEntry.content, certEntry.content, none,
          if opts.getCaPath then some rootCACertPath else none⟩, s)

/-- certificateFor of index.ts, in source order: domain validation,
platform check, openssl-on-PATH check, root-CA install / readability
repair, conditional domain-certificate generation, hosts-file updates, and
the final reads that build the return value. -/
def certificateFor (env : Env) (opts : Options) (requestedDomains : List String)
    (s : Sys) : Except Err ReturnData × Sys :=
  let domains := requestedDomains
  match findInvalidDomain env domains with
  | some d => (.error (.invalidDomain d), s)
  | none =>
    let domainPath := getStableDomainPath domains
    if !(env.isMac || env.isLinux || env.isWindows) then
      (.error .unsupportedPlatform, s)
    else if !env.opensslExists then
      (.error .missingOpenSSL, s)
    else
      let domainKeyPath := pathForDomainFile domainPath "private-key.key"
      let domainCertPath := pathForDomainFile domainPath "certificate.crt"
      let s1 := caSetupStep opts s
      match (if (s1.fs.lookup domainCertPath).isNone then
              generateDomainCertificate env domains s1
             else (.ok (), s1)) with
      | (.error e, s2) => (.error e, s2)
      | (.ok _, s2) =>
        let s3 := if !opts.skipHostsFile then addHosts domains s2 else s2
        readReturnData opts domainKeyPath domainCertPath s3

/-- hasCertificateFor of index.ts: the certificate file of the stable
domain path exists. -/
def hasCertificateFor (requestedDomains : List String) (s : Sys) : Bool :=
  (s.fs.lookup (pathForDomainFile (getStableDomainPath requestedDomains)
    "certificate.crt")).isSome

/-- rimraf.sync on the domain-set directory: every file under
domains/[domainPath] disappears and the deletion is recorded. -/
def underDomain (domainPath : String) : Path → Bool
  | "domains" :: d :: _ => d = domainPath
  | _ => false

def rimrafDomain (domainPath : String) (s : Sys) : Sys :=
  { s with fs := s.fs.filter (fun pe => !underDomain domainPath pe.1),
           trace := s.trace ++ [.fsDelete domainPath] }

/-- removeDomain of index.ts: await revokeDomainCertificate(domains), then
rimraf the domain directory.  A thrown revocation error propagates before
the deletion statement is reached. -/
def removeDomain (env : Env) (requestedDomains : List String) (s : Sys) :
    Except Err Unit × Sys :=
  let domains := requestedDomains
  match revokeDomainCertificate env domains s with
  | (.error e, s1) => (.error e, s1)
  | (.ok _, s1) =>
    let domainPath := getStableDomainPath domains
    (.ok (), rimrafDomain domainPath s1)

/-- Modelled from the spec: parseOpenSSLExpiryData (utils.ts, absent from
the snapshot) extracts the notAfter timestamp from the `...=[date]` text
and converts it to days remaining, returning the sentinel -1 for any parse
failure rather than propagating (spec 4.2). -/
def parseOpenSSLExpiryData (env : Env) (data : String) : Int :=
  match env.parseExpiry data with
  | some d => d
  | none => -1

/-- caExpiryInDays of index.ts: best-effort query of the root CA
certificate expiry; the try/catch turns any subprocess failure into -1. -/
def caExpiryInDays (env : Env) (s : Sys) : Int × Sys :=
  match opensslRun env (.x509Enddate rootCACertPath) s with
  | (.error _, s1) => (-1, s1)
  | (.ok out, s1) => (parseOpenSSLExpiryData env out, s1)

/-- certificateExpiryInDays of index.ts: best-effort query of a cached
domain certificate expiry; the try/catch turns any subprocess failure
into -1. -/
def certificateExpiryInDays (env : Env) (domain : String) (s : Sys) : Int × Sys :=
  let domainPath := getStableDomainPath [domain]
  let domainCertPath := pathForDomainFile domainPath "certificate.crt"
  match opensslRun env (.x509Enddate domainCertPath) s with
  | (.error _, s1) => (-1, s1)
  | (.ok out, s1) => (parseOpenSSLExpiryData env out, s1)

/-! ## Concrete test fixtures -/

/-- A benign environment: macOS, openssl on PATH, every domain valid, and
an expiry parser that always answers 42 days. -/
def envTest : Env :=
  { isValidDomain := fun _ => true
    isMac := true
    isLinux := false
    isWindows := false
    opensslExists := true
    enddateOf := fun _ => "notAfter=Jan  1 00:00:00 2030 GMT"
    parseExpiry := fun _ => some 42 }

/-- Like envTest but the domain-syntax predicate rejects the wildcard
string, as is-valid-domain does with wildcard disallowed. -/
def envRejectWildcard : Env :=
  { envTest with isValidDomain := fun d => !(d == "*.example.com") }

/-- Like envTest but the expiry parser never recognises the text. -/
def envNoParse : Env :=
  { envTest with parseExpiry := fun _ => none }

/-- A fresh configuration root: empty filesystem, empty trace. -/
def sysInit : Sys := ⟨[], 0, []⟩

/-- A configuration root holding an already-installed root CA. -/
def sysWithCA : Sys :=
  ⟨[(rootCAKeyPath, ⟨.caKey 0, 256, 0⟩), (rootCACertPath, ⟨.caCert 0, 420, 0⟩)], 1, []⟩

/-- A configuration root holding a cached certificate for example.test. -/
def sysWithCert : Sys :=
  ⟨[(domainCertPathOf ["example.test"], ⟨.cert 0, 420, 0⟩)], 1, []⟩

/-- Options with every flag off, the default of certificateFor. -/
def optsNone : Options := ⟨false, false, false, false⟩

/-- Options requesting the CA certificate data. -/
def optsBuf : Options := ⟨true, false, false, false⟩

/-- Boolean success test of a result. -/
def exceptOk : Except Err ReturnData → Bool
  | .ok _ => true
  | .error _ => false

/-- The exact event sequence generateDomainCertificate appends: key
generation, CSR creation, then the CA-signing call bracketed by the
scoped credential acquisition. -/
def gdcTrace (domains : List String) : List Event :=
  [.subprocess (OpenSSLCmd.genrsa (domainKeyPathOf domains) 2048).argv,
   .subprocess (OpenSSLCmd.req (domainCsrConfigPath domains) (domainKeyPathOf domains)
     (domainCsrPathOf domains)).argv,
   .acquireCACreds,
   .subprocess (OpenSSLCmd.caSign (domainCertConfigPath domains) (domainCsrPathOf domains)
     (domainCertPathOf domains) rootCAKeyPath rootCACertPath 825 true).argv,
   .releaseCACreds]

/-- The argument vector of the revocation call, exactly as assembled in
revokeDomainCertificate. -/
def revokeArgvOf (domains : List String) : List String :=
  (OpenSSLCmd.caRevoke (domainCertConfigPath domains) (domainCertPathOf domains)
    rootCAKeyPath rootCACertPath).argv

/-! ## Helper lemmas -/

theorem FS.lookup_cons (q : Path) (e : FileEntry) (fs : FS) (p : Path) :
    FS.lookup ((q, e) :: fs) p = if q = p then some e else FS.lookup fs p := rfl

theorem FS.lookup_chmod_ne (fs : FS) (q p : Path) (m : Nat) (h : q ≠ p) :
    (FS.chmod fs q m).lookup p = fs.lookup p := by
  induction fs with
  | nil => rfl
  | cons hd tl ih =>
    obtain ⟨q', e'⟩ := hd
    by_cases hq : q' = q
    · subst hq
      simp [FS.chmod, FS.lookup, h]
    · simp [FS.chmod, FS.lookup, hq, ih]

theorem pathForDomainFile_ne_rootKey (dp f : String) :
    rootCAKeyPath ≠ pathForDomainFile dp f := by
  intro h
  simp [rootCAKeyPath, pathForDomainFile] at h

theorem pathForDomainFile_ne_rootCert (dp f : String) :
    rootCACertPath ≠ pathForDomainFile dp f := by
  intro h
  simp [rootCACertPath, pathForDomainFile] at h

theorem pathForDomainFile_ne_rootKey' (dp f : String) :
    pathForDomainFile dp f ≠ rootCAKeyPath :=
  fun h => pathForDomainFile_ne_rootKey dp f h.symm

theorem pathForDomainFile_ne_rootCert' (dp f : String) :
    pathForDomainFile dp f ≠ rootCACertPath :=
  fun h => pathForDomainFile_ne_rootCert dp f h.symm

theorem installCA_lookup_domain (opts : Options) (s : Sys) (dp f : String) :
    (installCertificateAuthority opts s).fs.lookup (pathForDomainFile dp f)
      = s.fs.lookup (pathForDomainFile dp f) := by
  simp [installCertificateAuthority, Sys.writeFile, Sys.emit, FS.lookup_cons,
    pathForDomainFile_ne_rootKey dp f, pathForDomainFile_ne_rootCert dp f]

theorem ensureReadable_lookup_domain (opts : Options) (s : Sys) (dp f : String) :
    (ensureCACertReadable opts s).fs.lookup (pathForDomainFile dp f)
      = s.fs.lookup (pathForDomainFile dp f) := by
  simp [ensureCACertReadable, Sys.emit]
  exact FS.lookup_chmod_ne _ _ _ _ (pathForDomainFile_ne_rootKey dp f)

theorem caSetupStep_lookup_domain (opts : Options) (s : Sys) (dp f : String) :
    (caSetupStep opts s).fs.lookup (pathForDomainFile dp f)
      = s.fs.lookup (pathForDomainFile dp f) := by
  unfold caSetupStep
  split
  · exact installCA_lookup_domain opts s dp f
  · split
    · exact ensureReadable_lookup_domain opts s dp f
    · rfl

theorem addHosts_fs (domains : List String) (s : Sys) :
    (addHosts domains s).fs = s.fs := by
  induction domains generalizing s with
  | nil => rfl
  | cons d ds ih => simpa [addHosts, Sys.emit] using ih (s.emit (.hostsAdd d))

theorem addHosts_trace (domains : List String) (s : Sys) :
    (addHosts domains s).trace = s.trace ++ domains.map Event.hostsAdd := by
  induction domains generalizing s with
  | nil => simp [addHosts]
  | cons d ds ih =>
    have := ih (s.emit (.hostsAdd d))
    simp [addHosts, Sys.emit] at this ⊢
    simp [this]

theorem readReturnData_state (opts : Options) (kp cp : Path) (s : Sys) :
    (readReturnData opts kp cp s).2 = s := by
  unfold readReturnData
  cases s.fs.lookup kp with
  | none => rfl
  | some keyEntry =>
    cases s.fs.lookup cp with
    | none => rfl
    | some certEntry =>
      by_cases hb : opts.getCaBuffer
      · simp [hb]
        cases s.fs.lookup rootCACertPath with
        | none => rfl
        | some caEntry => rfl
      · simp [hb]

theorem readReturnData_ok_cert (opts : Options) (kp cp : Path) (s : Sys)
    (r : ReturnData) (h : (readReturnData opts kp cp s).1 = .ok r) :
    (s.fs.lookup cp).isSome = true := by
  unfold readReturnData at h
  cases hk : s.fs.lookup kp with
  | none => simp [hk] at h
  | some keyEntry =>
    cases hc : s.fs.lookup cp with
    | none => simp [hk, hc] at h
    | some certEntry => simp [hc]

theorem readReturnData_err_shape (opts : Options) (kp cp : Path) (s : Sys)
    (e : Err) (h : (readReturnData opts kp cp s).1 = .error e) :
    ∃ p, e = .fileNotFound p := by
  unfold readReturnData at h
  cases hk : s.fs.lookup kp with
  | none => simp [hk] at h; exact ⟨kp, h.symm⟩
  | some keyEntry =>
    cases hc : s.fs.lookup cp with
    | none => simp [hk, hc] at h; exact ⟨cp, h.symm⟩
    | some certEntry =>
      by_cases hb : opts.getCaBuffer
      · simp [hk, hc, hb] at h
        cases hca : s.fs.lookup rootCACertPath with
        | none => simp [hca] at h; exact ⟨rootCACertPath, h.symm⟩
        | some caEntry => simp [hca] at h
      · simp [hk, hc, hb] at h

theorem opensslRun_err_shape (env : Env) (c : OpenSSLCmd) (s : Sys) (e : Err)
    (h : (opensslRun env c s).1 = .error e) : ∃ m, e = .externalTool m := by
  cases c with
  | genrsa out bits => simp [opensslRun] at h
  | req config key out =>
    simp only [opensslRun] at h
    split at h
    · simp at h
    · simp at h; exact ⟨_, h.symm⟩
  | caSign config csr out caKey caCert days batch =>
    simp only [opensslRun] at h
    split at h
    · simp at h
    · simp at h; exact ⟨_, h.symm⟩
  | caRevoke config cert caKey caCert =>
    simp only [opensslRun] at h
    split at h
    · simp at h
    · simp at h; exact ⟨_, h.symm⟩
  | x509Enddate file =>
    simp only [opensslRun] at h
    split at h
    · simp at h
    · simp at h; exact ⟨_, h.symm⟩

theorem opensslRun_trace (env : Env) (c : OpenSSLCmd) (s : Sys) :
    (opensslRun env c s).2.trace = s.trace ++ [.subprocess c.argv] := by
  cases c with
  | genrsa out bits => simp [opensslRun, Sys.emit, Sys.writeFile]
  | req config key out =>
    simp only [opensslRun]
    split <;> simp [Sys.emit, Sys.writeFile]
  | caSign config csr out caKey caCert days batch =>
    simp only [opensslRun]
    split <;> simp [Sys.emit, Sys.writeFile]
  | caRevoke config cert caKey caCert =>
    simp only [opensslRun]
    split <;> simp [Sys.emit, Sys.writeFile]
  | x509Enddate file =>
    simp only [opensslRun]
    split <;> simp [Sys.emit, Sys.writeFile]

theorem generateKey_result (env : Env) (filename : Path) (s : Sys) :
    generateKey env filename s =
      (.ok (), { fs := (filename, ⟨.rsaKey 2048 s.clock, 400, s.clock⟩) :: s.fs,
                 clock := s.clock + 1,
                 trace := s.trace ++ [.subprocess (OpenSSLCmd.genrsa filename 2048).argv] }) := by
  simp [generateKey, opensslRun, Sys.emit, Sys.writeFile, FS.chmod]

theorem generateDomainCertificate_trace (env : Env) (domains : List String) (s : Sys) :
    (generateDomainCertificate env domains s).2.trace = s.trace ++ gdcTrace domains := by
  simp only [generateDomainCertificate]
  rw [generateKey_result]
  simp only [opensslRun, Sys.emit, Sys.writeFile, FS.lookup_cons, if_pos rfl,
    Option.isSome_some, if_true, pathForDomainFile_ne_rootKey',
    pathForDomainFile_ne_rootCert', if_false, gdcTrace, domainKeyPathOf,
    domainCsrPathOf, domainCertPathOf, Bool.true_and]
  split <;> simp [Sys.emit, Sys.writeFile, domainKeyPathOf, domainCsrPathOf, domainCertPathOf]

theorem generateDomainCertificate_err_shape (env : Env) (domains : List String) (s : Sys)
    (e : Err) (h : (generateDomainCertificate env domains s).1 = .error e) :
    ∃ m, e = .externalTool m := by
  simp only [generateDomainCertificate] at h
  rw [generateKey_result] at h
  simp only at h
  cases hreq : (opensslRun env (.req (domainCsrConfigPath domains)
      (pathForDomainFile (getStableDomainPath domains) "private-key.key")
      (pathForDomainFile (getStableDomainPath domains) "certificate-signing-request.csr"))
      { fs := _, clock := _, trace := _ }) with
  | mk r1 s2 =>
    cases r1 with
    | error e1 =>
      rw [hreq] at h
      simp at h
      subst h
      exact opensslRun_err_shape env _ _ e1 (by rw [hreq])
    | ok v =>
      rw [hreq] at h
      simp only at h
      cases hsign : (opensslRun env (.caSign (domainCertConfigPath domains)
          (pathForDomainFile (getStableDomainPath domains) "certificate-signing-request.csr")
          (pathForDomainFile (getStableDomainPath domains) "certificate.crt")
          rootCAKeyPath rootCACertPath 825 true) (s2.emit .acquireCACreds)) with
      | mk r2 s3 =>
        rw [hsign] at h
        cases r2 with
        | error e2 =>
          simp [Except.map] at h
          subst h
          exact opensslRun_err_shape env _ _ e2 (by rw [hsign])
        | ok v2 => simp [Except.map] at h

/-- Claim C8: for every domain set, generateDomainCertificate signs the
CSR with the CA key and CA certificate inside the scoped CA-credential
acquisition, issuing the ca sub-command with an explicit validity of
exactly 825 days and the non-interactive -batch flag: the appended event
trace is exactly key generation, CSR creation, then
acquire / ca-sign / release, with the full literal argument vector. -/
theorem c8_generate_signs_with_ca_825_batch (env : Env) (domains : List String) (s : Sys) :
    (generateDomainCertificate env domains s).2.trace =
      s.trace ++
        [.subprocess ["genrsa", "-out", renderPath (domainKeyPathOf domains), "2048"],
         .subprocess ["req", "-new", "-config", domainCsrConfigPath domains,
           "-key", renderPath (domainKeyPathOf domains),
           "-out", renderPath (domainCsrPathOf domains)],
         .acquireCACreds,
         .subprocess ["ca", "-config", domainCertConfigPath domains,
           "-in", renderPath (domainCsrPathOf domains),
           "-out", renderPath (domainCertPathOf domains),
           "-keyfile", renderPath rootCAKeyPath,
           "-cert", renderPath rootCACertPath,
           "-days", "825", "-batch"],
         .releaseCACreds] := by
  rw [generateDomainCertificate_trace]
  rfl

theorem revokeDomainCertificate_spec (env : Env) (domains : List String) (s : Sys) :
    (revokeDomainCertificate env domains s).2.trace
        = s.trace ++ [.acquireCACreds, .subprocess (revokeArgvOf domains), .releaseCACreds]
    ∧ (revokeDomainCertificate env domains s).2.fs = s.fs
    ∧ (revokeDomainCertificate env domains s).1
        = (if (s.fs.lookup (domainCertPathOf domains)).isSome
              && (s.fs.lookup rootCAKeyPath).isSome
              && (s.fs.lookup rootCACertPath).isSome then
            .ok ()
           else .error (.externalTool "ca: unable to load certificate to revoke")) := by
  simp only [revokeDomainCertificate, opensslRun, Sys.emit, revokeArgvOf, domainCertPathOf]
  split <;> simp [Except.map, List.append_assoc]

/-- Claim C7: in every execution of removeDomain, the revocation of the
domain certificate (through the resolution of the awaited call, marked by
the credential release event) happens strictly before the domain directory
is deleted: the trace either records the complete revocation attempt and
no deletion (when revocation fails), or records the deletion event exactly
once, after the complete revocation sequence. -/
theorem c7_removeDomain_revokes_before_delete (env : Env) (domains : List String) (s : Sys) :
    ((removeDomain env domains s).2.trace
        = s.trace ++ [.acquireCACreds, .subprocess (revokeArgvOf domains), .releaseCACreds]
      ∧ (removeDomain env domains s).1 ≠ .ok ())
    ∨ (removeDomain env domains s).2.trace
        = s.trace ++ [.acquireCACreds, .subprocess (revokeArgvOf domains), .releaseCACreds,
            .fsDelete (getStableDomainPath domains)] := by
  obtain ⟨htr, hfs, hres⟩ := revokeDomainCertificate_spec env domains s
  unfold removeDomain
  cases hr : revokeDomainCertificate env domains s with
  | mk r s1 =>
    cases r with
    | error e =>
      left
      constructor
      · simpa [hr] using htr
      · simp [hr]
    | ok v =>
      right
      have : s1.trace = s.trace ++ [.acquireCACreds, .subprocess (revokeArgvOf domains),
          .releaseCACreds] := by simpa [hr] using htr
      simp [hr, rimrafDomain, this, List.append_assoc]

/-- Claim C10: removeDomain is atomic with respect to revocation failure:
when no certificate is cached for the domain set the revocation subprocess
exits non-zero, removeDomain propagates the error, the filesystem is left
exactly as it was, and no deletion event is ever emitted (the appended
trace is only the failed revocation attempt). -/
theorem c10_removeDomain_atomic_on_revoke_failure (env : Env) (domains : List String)
    (s : Sys) (h : s.fs.lookup (domainCertPathOf domains) = none) :
    (∃ m, (removeDomain env domains s).1 = .error (.externalTool m))
    ∧ (removeDomain env domains s).2.fs = s.fs
    ∧ (removeDomain env domains s).2.trace
        = s.trace ++ [.acquireCACreds, .subprocess (revokeArgvOf domains), .releaseCACreds]
    ∧ ∀ dp, Event.fsDelete dp
        ∉ [Event.acquireCACreds, Event.subprocess (revokeArgvOf domains),
           Event.releaseCACreds] := by
  obtain ⟨htr, hfs, hres⟩ := revokeDomainCertificate_spec env domains s
  rw [h] at hres
  simp only [Option.isSome_none, Bool.false_and, if_neg] at hres
  unfold removeDomain
  cases hr : revokeDomainCertificate env domains s with
  | mk r s1 =>
    cases r with
    | error e =>
      refine ⟨⟨"ca: unable to load certificate to revoke", ?_⟩, ?_, ?_, ?_⟩
      · have he : e = Err.externalTool "ca: unable to load certificate to revoke" := by
          have h2 := hres
          rw [hr] at h2
          simpa using h2
        simp [hr, he]
      · simpa [hr] using hfs
      · simpa [hr] using htr
      · intro dp
        simp
    | ok v =>
      exfalso
      rw [hr] at hres
      simp at hres

/-- Claim C2: the stable domain path (the on-disk storage identifier used
by certificateFor, hasCertificateFor, removeDomain and
generateDomainCertificate) is invariant under permutation of the domain
list, and so is every file path derived from it. -/
theorem c2_stableDomainPath_perm_invariant (l l' : List String) (h : l.Perm l') :
    getStableDomainPath l = getStableDomainPath l'
    ∧ ∀ f, pathForDomainFile (getStableDomainPath l) f
        = pathForDomainFile (getStableDomainPath l') f := by
  have hsort : List.insertionSort ((· ≤ ·) : String → String → Prop) l
      = List.insertionSort (· ≤ ·) l' :=
    @List.eq_of_perm_of_sorted String (· ≤ ·) _ _ _
      ((List.perm_insertionSort _ l).trans
        (h.trans (List.perm_insertionSort _ l').symm))
      (List.sorted_insertionSort _ l) (List.sorted_insertionSort _ l')
  refine ⟨?_, ?_⟩
  · unfold getStableDomainPath
    rw [hsort]
  · intro f
    unfold pathForDomainFile getStableDomainPath
    rw [hsort]

/-- Claim C2 witness: the two orderings of the same two-domain set resolve
to the same stable path. -/
theorem c2_witness :
    getStableDomainPath ["b.test", "a.test"] = getStableDomainPath ["a.test", "b.test"] :=
  (c2_stableDomainPath_perm_invariant ["b.test", "a.test"] ["a.test", "b.test"]
    (List.Perm.swap "a.test" "b.test" [])).1

/-- Claim C10 witness: on a fresh configuration root, removeDomain for
example.test fails with the revocation error, leaves the (empty)
filesystem untouched and emits no deletion event. -/
theorem c10_witness :
    (∃ m, (removeDomain envTest ["example.test"] sysInit).1 = .error (.externalTool m))
    ∧ (removeDomain envTest ["example.test"] sysInit).2.fs = sysInit.fs
    ∧ (removeDomain envTest ["example.test"] sysInit).2.trace
        = sysInit.trace ++ [.acquireCACreds, .subprocess (revokeArgvOf ["example.test"]),
            .releaseCACreds]
    ∧ ∀ dp, Event.fsDelete dp
        ∉ [Event.acquireCACreds, Event.subprocess (revokeArgvOf ["example.test"]),
           Event.releaseCACreds] :=
  c10_removeDomain_atomic_on_revoke_failure envTest ["example.test"] sysInit rfl

/-- Claim C5 (evidence of the code bug): generateKey writes a fresh
2048-bit RSA key, but the subsequent chmod passes the bare number 400,
which the filesystem API reads as decimal 400 = octal 0o620 - a mode that
is not the owner-read-only 0o400 = 256 and that leaves the group write
bit (group permission digit 2) set. -/
theorem c5_generateKey_chmod_decimal_400 (env : Env) (filename : Path) (s : Sys) :
    (generateKey env filename s).1 = .ok ()
    ∧ (generateKey env filename s).2.fs.lookup filename
        = some ⟨.rsaKey 2048 s.clock, 400, s.clock⟩
    ∧ (400 : Nat) ≠ 256
    ∧ (400 / 8) % 8 = 2 := by
  rw [generateKey_result]
  refine ⟨rfl, ?_, by decide, by decide⟩
  simp [FS.lookup]

/-- Claim C6: the expiry queries never raise (they are total functions
into the integers): a missing CA or domain certificate file makes the
subprocess invocation fail and the result is the sentinel -1; when the
invocation succeeds the result is the parsed days-remaining value, which
is itself -1 whenever the text does not parse. -/
theorem c6_expiry_queries_sentinel (env : Env) (s : Sys) (domain : String) :
    (s.fs.lookup rootCACertPath = none → (caExpiryInDays env s).1 = -1)
    ∧ (∀ e, s.fs.lookup rootCACertPath = some e →
        (caExpiryInDays env s).1 = parseOpenSSLExpiryData env (env.enddateOf e.content))
    ∧ (∀ d, env.parseExpiry d = none → parseOpenSSLExpiryData env d = -1)
    ∧ (∀ d n, env.parseExpiry d = some n → parseOpenSSLExpiryData env d = n)
    ∧ (s.fs.lookup (domainCertPathOf [domain]) = none →
        (certificateExpiryInDays env domain s).1 = -1)
    ∧ (∀ e, s.fs.lookup (domainCertPathOf [domain]) = some e →
        (certificateExpiryInDays env domain s).1
          = parseOpenSSLExpiryData env (env.enddateOf e.content)) := by
  refine ⟨?_, ?_, ?_, ?_, ?_, ?_⟩
  · intro h
    simp [caExpiryInDays, opensslRun, Sys.emit, h]
  · intro e h
    simp [caExpiryInDays, opensslRun, Sys.emit, h]
  · intro d h
    simp [parseOpenSSLExpiryData, h]
  · intro d n h
    simp [parseOpenSSLExpiryData, h]
  · intro h
    simp only [domainCertPathOf] at h
    simp [certificateExpiryInDays, opensslRun, Sys.emit, h]
  · intro e h
    simp only [domainCertPathOf] at h
    simp [certificateExpiryInDays, opensslRun, Sys.emit, h]

/-- Claim C6 witness: on a fresh configuration root the CA expiry query
answers the sentinel -1. -/
theorem c6_witness : (caExpiryInDays envTest sysInit).1 = -1 :=
  (c6_expiry_queries_sentinel envTest sysInit "example.test").1 rfl

/-- Claim C1: when a certificate.crt is already cached for the domain set,
certificateFor does not regenerate the domain key or certificate: the
cached entries (content, mode and modification time) are untouched by the
whole call, so a second call with the same domains reuses them
unchanged. -/
theorem c1_cached_material_reused (env : Env) (opts : Options) (domains : List String)
    (s : Sys) (e : FileEntry)
    (h : s.fs.lookup (domainCertPathOf domains) = some e) :
    (certificateFor env opts domains s).2.fs.lookup (domainCertPathOf domains) = some e
    ∧ (certificateFor env opts domains s).2.fs.lookup (domainKeyPathOf domains)
        = s.fs.lookup (domainKeyPathOf domains) := by
  simp only [domainCertPathOf] at h ⊢
  simp only [domainKeyPathOf]
  have hcert : (caSetupStep opts s).fs.lookup
      (pathForDomainFile (getStableDomainPath domains) "certificate.crt") = some e :=
    (caSetupStep_lookup_domain opts s (getStableDomainPath domains) "certificate.crt").trans h
  have hkey : (caSetupStep opts s).fs.lookup
      (pathForDomainFile (getStableDomainPath domains) "private-key.key")
      = s.fs.lookup (pathForDomainFile (getStableDomainPath domains) "private-key.key") :=
    caSetupStep_lookup_domain opts s (getStableDomainPath domains) "private-key.key"
  simp only [certificateFor]
  cases hf : findInvalidDomain env domains with
  | some d => exact ⟨h, rfl⟩
  | none =>
    simp only
    split
    · exact ⟨h, rfl⟩
    · split
      · exact ⟨h, rfl⟩
      · rw [hcert]
        simp only [Option.isNone_some, Bool.false_eq_true, if_false]
        split
        · rw [readReturnData_state, addHosts_fs]
          exact ⟨hcert, hkey⟩
        · rw [readReturnData_state]
          exact ⟨hcert, hkey⟩

/-- Claim C1 witness: with a cached certificate for example.test,
certificateFor leaves both the certificate entry and the (absent) key
entry of that domain set exactly as they were. -/
theorem c1_witness :
    (certificateFor envTest optsNone ["example.test"] sysWithCert).2.fs.lookup
        (domainCertPathOf ["example.test"]) = some ⟨.cert 0, 420, 0⟩
    ∧ (certificateFor envTest optsNone ["example.test"] sysWithCert).2.fs.lookup
        (domainKeyPathOf ["example.test"])
        = sysWithCert.fs.lookup (domainKeyPathOf ["example.test"]) :=
  c1_cached_material_reused envTest optsNone ["example.test"] sysWithCert
    ⟨.cert 0, 420, 0⟩ (by rfl)

theorem findInvalidDomain_some (env : Env) (domains : List String) (d : String)
    (h : findInvalidDomain env domains = some d) :
    d ∈ domains ∧ d ≠ "localhost" ∧ env.isValidDomain d = false := by
  refine ⟨List.mem_of_find?_eq_some h, ?_⟩
  have := List.find?_some h
  simpa using this

/-- Claim C3: when some requested domain other than the literal
"localhost" fails the DNS-syntax predicate, certificateFor raises the
invalid-domain error with the state (filesystem, clock and trace) exactly
as it was - no filesystem write and no subprocess invocation has happened;
and conversely every invalid-domain rejection names a domain that is not
"localhost" and failed the predicate, so "localhost" itself is always
accepted by the validation. -/
theorem c3_invalid_domain_rejected_before_effects (env : Env) (opts : Options)
    (domains : List String) (s : Sys) :
    ((∃ d, d ∈ domains ∧ d ≠ "localhost" ∧ env.isValidDomain d = false) →
      ∃ d', d' ∈ domains ∧ d' ≠ "localhost" ∧ env.isValidDomain d' = false
        ∧ certificateFor env opts domains s = (.error (.invalidDomain d'), s))
    ∧ (∀ d', (certificateFor env opts domains s).1 = .error (.invalidDomain d') →
        d' ≠ "localhost" ∧ env.isValidDomain d' = false) := by
  constructor
  · rintro ⟨d, hmem, hne, hval⟩
    cases hf : findInvalidDomain env domains with
    | none =>
      exfalso
      have hall := List.find?_eq_none.mp hf
      have := hall d hmem
      simp [hne, hval] at this
    | some d' =>
      obtain ⟨hm, hn, hv⟩ := findInvalidDomain_some env domains d' hf
      exact ⟨d', hm, hn, hv, by simp [certificateFor, hf]⟩
  · intro d' h
    cases hf : findInvalidDomain env domains with
    | some d0 =>
      have : d0 = d' := by
        simp only [certificateFor, hf] at h
        simpa using h
      obtain ⟨_, hn, hv⟩ := findInvalidDomain_some env domains d0 hf
      exact this ▸ ⟨hn, hv⟩
    | none =>
      exfalso
      simp only [certificateFor, hf] at h
      split at h
      · simp at h
      · split at h
        · simp at h
        · revert h
          cases hcond : (caSetupStep opts s).fs.lookup
              (pathForDomainFile (getStableDomainPath domains) "certificate.crt") with
          | none =>
            simp only [hcond, Option.isNone_none, if_true]
            cases hg : generateDomainCertificate env domains (caSetupStep opts s) with
            | mk r s2 =>
              cases r with
              | error eg =>
                intro h
                simp at h
                obtain ⟨m, hm⟩ := generateDomainCertificate_err_shape env domains
                  (caSetupStep opts s) eg (by rw [hg])
                rw [hm] at h
                exact absurd h.symm (by simp)
              | ok v =>
                intro h
                simp only at h
                obtain ⟨p, hp⟩ := readReturnData_err_shape _ _ _ _ _ h
                simp at hp
          | some ec =>
            simp only [hcond, Option.isNone_some, Bool.false_eq_true, if_false]
            intro h
            obtain ⟨p, hp⟩ := readReturnData_err_shape _ _ _ _ _ h
            simp at hp

/-- Claim C3 witness: with the wildcard-rejecting predicate,
certificateFor for the wildcard domain fails with the invalid-domain error
and the fresh state is returned untouched. -/
theorem c3_witness :
    ∃ d', d' ∈ ["*.example.com"] ∧ d' ≠ "localhost"
      ∧ envRejectWildcard.isValidDomain d' = false
      ∧ certificateFor envRejectWildcard optsNone ["*.example.com"] sysInit
          = (.error (.invalidDomain d'), sysInit) :=
  (c3_invalid_domain_rejected_before_effects envRejectWildcard optsNone
    ["*.example.com"] sysInit).1 ⟨"*.example.com", by decide, by decide, by decide⟩

theorem hasCert_of_readReturnData_ok (opts : Options) (domains : List String) (s3 : Sys)
    (h : exceptOk (readReturnData opts (pathForDomainFile (getStableDomainPath domains)
      "private-key.key") (pathForDomainFile (getStableDomainPath domains)
      "certificate.crt") s3).1 = true) :
    hasCertificateFor domains (readReturnData opts
      (pathForDomainFile (getStableDomainPath domains) "private-key.key")
      (pathForDomainFile (getStableDomainPath domains) "certificate.crt") s3).2 = true := by
  rw [readReturnData_state]
  cases hr : (readReturnData opts (pathForDomainFile (getStableDomainPath domains)
      "private-key.key") (pathForDomainFile (getStableDomainPath domains)
      "certificate.crt") s3).1 with
  | error e => rw [hr] at h; simp [exceptOk] at h
  | ok r =>
    have := readReturnData_ok_cert _ _ _ _ _ hr
    simpa [hasCertificateFor] using this

/-- Claim C9: on a fresh configuration root, hasCertificateFor answers
false for every domain set; and whenever certificateFor returns
successfully, hasCertificateFor answers true for the same domain set on
the resulting state. -/
theorem c9_hasCertificate_iff_provisioned (env : Env) (opts : Options)
    (domains : List String) (s : Sys) :
    (∀ ds : List String, hasCertificateFor ds sysInit = false)
    ∧ (exceptOk (certificateFor env opts domains s).1 = true →
        hasCertificateFor domains (certificateFor env opts domains s).2 = true) := by
  constructor
  · intro ds
    rfl
  · intro h
    cases hf : findInvalidDomain env domains with
    | some d => simp [certificateFor, hf, exceptOk] at h
    | none =>
      simp only [certificateFor, hf] at h ⊢
      cases hplat : !(env.isMac || env.isLinux || env.isWindows) with
      | true => simp [hplat, exceptOk] at h
      | false =>
        simp only [hplat, Bool.false_eq_true, if_false] at h ⊢
        cases hssl : !env.opensslExists with
        | true => simp [hssl, exceptOk] at h
        | false =>
          simp only [hssl, Bool.false_eq_true, if_false] at h ⊢
          cases hcond : ((caSetupStep opts s).fs.lookup
              (pathForDomainFile (getStableDomainPath domains) "certificate.crt")).isNone with
          | true =>
            simp only [hcond, if_true] at h ⊢
            cases hg : generateDomainCertificate env domains (caSetupStep opts s) with
            | mk r s2 =>
              simp only [hg] at h ⊢
              cases r with
              | error e => simp [exceptOk] at h
              | ok v => exact hasCert_of_readReturnData_ok opts domains _ h
          | false =>
            simp only [hcond, Bool.false_eq_true, if_false] at h ⊢
            exact hasCert_of_readReturnData_ok opts domains _ h

/-- Claim C9 witness: on a fresh configuration root, hasCertificateFor is
false for example.test, certificateFor succeeds, and hasCertificateFor is
true on the resulting state. -/
theorem c9_witness :
    hasCertificateFor ["example.test"] sysInit = false
    ∧ hasCertificateFor ["example.test"]
        (certificateFor envTest optsNone ["example.test"] sysInit).2 = true :=
  ⟨(c9_hasCertificate_iff_provisioned envTest optsNone ["example.test"] sysInit).1
      ["example.test"],
   (c9_hasCertificate_iff_provisioned envTest optsNone ["example.test"] sysInit).2
      (by decide)⟩

theorem ensureCACertReadable_trace (opts : Options) (s : Sys) :
    (ensureCACertReadable opts s).trace = s.trace ++ [.ensureReadable] := by
  simp [ensureCACertReadable, Sys.emit]

theorem caSetupStep_eq_ensure (opts : Options) (s : Sys)
    (hca : (s.fs.lookup rootCAKeyPath).isSome = true)
    (hopt : (opts.getCaBuffer || opts.getCaPath) = true) :
    caSetupStep opts s = ensureCACertReadable opts s := by
  unfold caSetupStep
  cases hl : s.fs.lookup rootCAKeyPath with
  | none => rw [hl] at hca; simp at hca
  | some v => simp [hl, hopt]

/-- Claim C4 counterexample: an invocation of certificateFor in which the
root CA key file already exists but the caller passed neither getCaBuffer
nor getCaPath never executes the ensure-readable repair - no
ensureReadable event appears on the trace, refuting the claim that the
repair runs on every such invocation regardless of options. -/
theorem c4_counterexample :
    Event.ensureReadable
      ∉ (certificateFor envTest optsNone ["example.test"] sysWithCA).2.trace := by
  decide

/-- Positive direction of the repair gating: on every invocation that
passes validation and the platform and openssl checks, with the root CA
key present and the options requesting CA material, the repair event
appears on the resulting trace. -/
theorem certFor_repair_runs_of_flags (env : Env) (opts : Options)
    (domains : List String) (s : Sys)
    (hval : ∀ d ∈ domains, d = "localhost" ∨ env.isValidDomain d = true)
    (hplat : (env.isMac || env.isLinux || env.isWindows) = true)
    (hssl : env.opensslExists = true)
    (hca : (s.fs.lookup rootCAKeyPath).isSome = true)
    (hopt : (opts.getCaBuffer || opts.getCaPath) = true) :
    Event.ensureReadable ∈ (certificateFor env opts domains s).2.trace := by
  have hf : findInvalidDomain env domains = none := by
    apply List.find?_eq_none.mpr
    intro x hx
    rcases hval x hx with h1 | h1
    · simp [h1]
    · simp [h1]
  simp only [certificateFor, hf, hplat, hssl, Bool.not_true, Bool.false_eq_true, if_false]
  rw [caSetupStep_eq_ensure opts s hca hopt]
  have hmem : Event.ensureReadable ∈ (ensureCACertReadable opts s).trace := by
    rw [ensureCACertReadable_trace]
    simp
  cases hcond : ((ensureCACertReadable opts s).fs.lookup
      (pathForDomainFile (getStableDomainPath domains) "certificate.crt")).isNone with
  | true =>
    simp only [hcond, if_true]
    cases hg : generateDomainCertificate env domains (ensureCACertReadable opts s) with
    | mk r s2 =>
      have htr : s2.trace = (ensureCACertReadable opts s).trace ++ gdcTrace domains := by
        have h2 := generateDomainCertificate_trace env domains (ensureCACertReadable opts s)
        rw [hg] at h2
        exact h2
      cases r with
      | error e =>
        show Event.ensureReadable ∈ s2.trace
        rw [htr]
        exact List.mem_append_left _ hmem
      | ok v =>
        show Event.ensureReadable ∈ (readReturnData opts
          (pathForDomainFile (getStableDomainPath domains) "private-key.key")
          (pathForDomainFile (getStableDomainPath domains) "certificate.crt")
          (if (!opts.skipHostsFile) = true then addHosts domains s2 else s2)).2.trace
        rw [readReturnData_state]
        split
        · rw [addHosts_trace, htr]
          exact List.mem_append_left _ (List.mem_append_left _ hmem)
        · rw [htr]
          exact List.mem_append_left _ hmem
  | false =>
    simp only [hcond, Bool.false_eq_true, if_false]
    rw [readReturnData_state]
    split
    · rw [addHosts_trace]
      exact List.mem_append_left _ hmem
    · exact hmem

/-- Negative direction of the repair gating: on every invocation with the
root CA key present and neither getCaBuffer nor getCaPath set, the repair
path is skipped - the events the call appends never include the repair
event, whatever the environment, domains and state. -/
theorem certFor_no_repair_of_flags_false (env : Env) (opts : Options)
    (domains : List String) (s : Sys)
    (hca : (s.fs.lookup rootCAKeyPath).isSome = true)
    (hopt : (opts.getCaBuffer || opts.getCaPath) = false) :
    ∃ t, (certificateFor env opts domains s).2.trace = s.trace ++ t
      ∧ Event.ensureReadable ∉ t := by
  have hsetup : caSetupStep opts s = s := by
    unfold caSetupStep
    cases hl : s.fs.lookup rootCAKeyPath with
    | none => rw [hl] at hca; simp at hca
    | some v => simp [hl, hopt]
  simp only [certificateFor]
  cases hf : findInvalidDomain env domains with
  | some d => exact ⟨[], by simp, by simp⟩
  | none =>
    simp only
    split
    · exact ⟨[], by simp, by simp⟩
    · split
      · exact ⟨[], by simp, by simp⟩
      · rw [hsetup]
        cases hcond : (s.fs.lookup (pathForDomainFile (getStableDomainPath domains)
            "certificate.crt")).isNone with
        | true =>
          simp only [hcond, if_true]
          cases hg : generateDomainCertificate env domains s with
          | mk r s2 =>
            have htr : s2.trace = s.trace ++ gdcTrace domains := by
              have h2 := generateDomainCertificate_trace env domains s
              rw [hg] at h2
              exact h2
            cases r with
            | error e =>
              refine ⟨gdcTrace domains, ?_, by simp [gdcTrace]⟩
              show s2.trace = s.trace ++ gdcTrace domains
              exact htr
            | ok v =>
              show ∃ t, (readReturnData opts
                (pathForDomainFile (getStableDomainPath domains) "private-key.key")
                (pathForDomainFile (getStableDomainPath domains) "certificate.crt")
                (if (!opts.skipHostsFile) = true then addHosts domains s2 else s2)).2.trace
                  = s.trace ++ t ∧ Event.ensureReadable ∉ t
              rw [readReturnData_state]
              split
              · refine ⟨gdcTrace domains ++ domains.map Event.hostsAdd, ?_, ?_⟩
                · rw [addHosts_trace, htr, List.append_assoc]
                · simp [gdcTrace]
              · exact ⟨gdcTrace domains, htr, by simp [gdcTrace]⟩
        | false =>
          simp only [hcond, Bool.false_eq_true, if_false]
          rw [readReturnData_state]
          split
          · exact ⟨domains.map Event.hostsAdd, addHosts_trace domains s, by simp⟩
          · exact ⟨[], by simp, by simp⟩

/-- Claim C4 as amended: for every invocation of certificateFor in which
the root CA key file already exists, the ensure-readable repair path is
executed only when the options request CA material: with both flags false
the events the call appends never include the repair event, on every such
invocation; and with getCaBuffer or getCaPath set (the call passing
validation and the platform and openssl checks) the repair event does
appear on the trace. -/
theorem c4_amended_repair_iff_ca_material_requested (env : Env) (opts : Options)
    (domains : List String) (s : Sys)
    (hca : (s.fs.lookup rootCAKeyPath).isSome = true) :
    ((opts.getCaBuffer || opts.getCaPath) = false →
      ∃ t, (certificateFor env opts domains s).2.trace = s.trace ++ t
        ∧ Event.ensureReadable ∉ t)
    ∧ ((opts.getCaBuffer || opts.getCaPath) = true →
      (∀ d ∈ domains, d = "localhost" ∨ env.isValidDomain d = true) →
      (env.isMac || env.isLinux || env.isWindows) = true →
      env.opensslExists = true →
      Event.ensureReadable ∈ (certificateFor env opts domains s).2.trace) :=
  ⟨fun hopt => certFor_no_repair_of_flags_false env opts domains s hca hopt,
   fun hopt hval hplat hssl =>
     certFor_repair_runs_of_flags env opts domains s hval hplat hssl hca hopt⟩

/-- Claim C4 witness (amended claim at concrete inputs): with the root CA
present, the all-flags-off call appends no repair event, and the
getCaBuffer call puts the repair event on the trace. -/
theorem c4_witness :
    (∃ t, (certificateFor envTest optsNone ["example.test"] sysWithCA).2.trace
        = sysWithCA.trace ++ t ∧ Event.ensureReadable ∉ t)
    ∧ Event.ensureReadable
        ∈ (certificateFor envTest optsBuf ["example.test"] sysWithCA).2.trace :=
  ⟨(c4_amended_repair_iff_ca_material_requested envTest optsNone ["example.test"]
      sysWithCA (by decide)).1 rfl,
   (c4_amended_repair_iff_ca_material_requested envTest optsBuf ["example.test"]
      sysWithCA (by decide)).2 rfl (by decide) rfl rfl⟩

end Devcert
